import Mathlib

/-!
# Verification of the menu acquisition and normalization pipeline

Shallow embedding of the menu-acquisition core of `src/server.js`
(the `ForFiveCoffeeServer` class: `fetchMenuData`, `isCacheValid`,
`updateCache`, `fetchFromAPI`, `parseAPIResponse`, `fetchWithPuppeteer`,
`fetchFromWebsite`, `isJavaScriptCode`, `parseMenuFromText`).

JavaScript strings are modelled as Lean `String`s, with the JS string
operations (`split`, `trim`, `includes`, `startsWith`, regex matching)
implemented explicitly over `List Char` so that their semantics match the
JS built-ins on the ASCII data the pipeline handles.  Network and browser
effects are modelled by environment records carrying the outcome of each
external interaction; the pipeline logic itself is translated directly
from the source.
-/

namespace MenuMpc

/-! ## JS string primitives -/

/-- JS `String.prototype.startsWith` on char lists: `prefixOf needle hay`. -/
def prefixOf : List Char → List Char → Bool
  | [], _ => true
  | _ :: _, [] => false
  | a :: as, b :: bs => a = b && prefixOf as bs

/-- JS `String.prototype.includes` on char lists: `infixOf needle hay`. -/
def infixOf (needle : List Char) : List Char → Bool
  | [] => needle.isEmpty
  | c :: rest => prefixOf needle (c :: rest) || infixOf needle rest

/-- JS `hay.includes(needle)` for strings. -/
def jsIncludes (hay needle : String) : Bool :=
  infixOf needle.toList hay.toList

/-- JS `hay.startsWith(needle)` for strings. -/
def jsStartsWith (hay needle : String) : Bool :=
  prefixOf needle.toList hay.toList

/-- The whitespace characters JS `\s` / `trim` recognize (ASCII fragment). -/
def jsWhitespace (c : Char) : Bool :=
  c = ' ' || c = '\t' || c = '\n' || c = '\r' || c = '\x0b' || c = '\x0c'

/-- Trim on char lists: drop leading and trailing whitespace. -/
def trimChars (l : List Char) : List Char :=
  ((l.dropWhile jsWhitespace).reverse.dropWhile jsWhitespace).reverse

/-- JS `s.trim()`. -/
def jsTrim (s : String) : String :=
  ⟨trimChars s.toList⟩

/-- JS `s.split(sep)` for a single-character separator, on char lists.
`splitOnChar '$' "a$b".toList = [['a'], ['b']]`; the empty string splits
to `[[]]`, matching JS `"".split(sep) = [""]`. -/
def splitOnChar (sep : Char) : List Char → List (List Char)
  | [] => [[]]
  | c :: cs =>
    let rest := splitOnChar sep cs
    if c = sep then [] :: rest
    else
      match rest with
      | r :: rs => (c :: r) :: rs
      | [] => [[c]]

/-- JS `s.split(sep)` for strings, single-character separator. -/
def jsSplit (s : String) (sep : Char) : List String :=
  (splitOnChar sep s.toList).map fun l => ⟨l⟩

/-- JS truthiness-based `||` for strings: the empty string is falsy. -/
def jsStrOr (a b : String) : String :=
  if a = "" then b else a

/-- JS truthiness-based `||` for an optional string against a default
(`item.name || 'Unknown Item'`): `none` and the empty string are falsy. -/
def jsOptStrOr (a : Option String) (b : String) : String :=
  match a with
  | some s => jsStrOr s b
  | none => b

/-! ## Data model

`MenuItem` is the normalized item record produced by every adapter
(`name`, `description`, `price`, `category`).  `MenuSnapshot` is the
result object built by each fetch method: `items`, `categories`, an
optional `source` tag (`fetchFromAPI` sets none, `fetchWithPuppeteer`
sets `"puppeteer"`, `fetchFromWebsite` sets `"static_html"`) and the
`cached` annotation added by `updateCache`.  The `lastUpdated` wall-clock
string is not modelled: no pipeline decision reads it. -/

structure MenuItem where
  name : String
  description : String
  price : String
  category : String
deriving DecidableEq, Repr

structure MenuSnapshot where
  items : List MenuItem
  categories : List String
  source : Option String
  cached : Bool
deriving DecidableEq, Repr

/-- `[...new Set(xs)]`: first-seen-order deduplication, as JS `Set`
insertion order gives. -/
def firstSeenDedup (l : List String) : List String :=
  l.foldl (fun acc c => if c ∈ acc then acc else acc ++ [c]) []

/-! ## `isJavaScriptCode` (src/server.js lines 1831-1843) -/

/-- `isJavaScriptCode(items)`: true when some item name contains a
script-leakage marker or is longer than 500 characters. -/
def isJavaScriptCode (items : List MenuItem) : Bool :=
  if items.length = 0 then false
  else
    items.any fun item =>
      jsIncludes item.name "window." ||
      jsIncludes item.name "LOCATIONS" ||
      jsIncludes item.name "tenant" ||
      jsIncludes item.name "coordinates" ||
      item.name.length > 500

/-! ## Cache (src/server.js lines 1329-1354)

Timestamps are JS epoch milliseconds, modelled as `Int`;
`cacheExpiryMinutes` may be fractional (a test sets `0.01`), modelled as
`ℚ`; the JS float division `(now - ts) / (1000 * 60)` is exact rational
division on these inputs. -/

structure CacheState where
  menuCache : Option MenuSnapshot
  cacheTimestamp : Option Int
deriving DecidableEq, Repr

/-- `isCacheValid()`: an entry and a timestamp exist and the age in
minutes is strictly below `cacheExpiryMinutes`. -/
def isCacheValid (menuCache : Option MenuSnapshot) (cacheTimestamp : Option Int)
    (now : Int) (cacheExpiryMinutes : ℚ) : Bool :=
  match menuCache, cacheTimestamp with
  | some _, some ts =>
    decide ((((now - ts : Int) : ℚ) / (1000 * 60)) < cacheExpiryMinutes)
  | _, _ => false

/-- `updateCache(menuData)`: store the snapshot with the `cached`
annotation and stamp the current time. -/
def updateCache (_st : CacheState) (menuData : MenuSnapshot) (now : Int) : CacheState :=
  { menuCache := some { menuData with cached := true },
    cacheTimestamp := some now }

/-! ## Plain-text heuristic extraction (`parseMenuFromText`,
src/server.js lines 1855-1892) -/

/-- `line.match(/^[A-Z][A-Z\s&]+$/)`: first char ASCII uppercase, at
least one further char, all further chars uppercase, whitespace or `&`. -/
def matchesCategoryPattern (line : String) : Bool :=
  match line.toList with
  | [] => false
  | c :: rest =>
    c.isUpper && !rest.isEmpty &&
      rest.all fun d => d.isUpper || jsWhitespace d || d = '&'

/-- The category-header test of `parseMenuFromText`: pattern match plus
`line.length < 50`. -/
def isCategoryHeader (line : String) : Bool :=
  matchesCategoryPattern line && line.length < 50

/-- `line.match(/.*\$\d+\.?\d*/)` is truthy iff the line contains a `$`
immediately followed by a digit. -/
def containsDollarNumber (line : String) : Bool :=
  let cs := line.toList
  (cs.zip cs.tail).any fun p => p.1 = '$' && p.2.isDigit

/-- The line loop of `parseMenuFromText`, carrying `currentCategory`. -/
def parseMenuLines : List String → String → List MenuItem
  | [], _ => []
  | line :: rest, currentCategory =>
    if isCategoryHeader line then
      parseMenuLines rest line
    else if containsDollarNumber line then
      let parts := jsSplit line '$'
      if h : parts.length ≥ 2 then
        let name := jsTrim parts[0]
        let price := "$" ++ jsTrim parts[1]
        if name.length > 2 then
          ⟨name, "", price, currentCategory⟩ :: parseMenuLines rest currentCategory
        else
          parseMenuLines rest currentCategory
      else
        parseMenuLines rest currentCategory
    else
      parseMenuLines rest currentCategory

/-- `parseMenuFromText(text)`: split into trimmed non-empty lines, then
run the category/item line loop starting from category `"General"`. -/
def parseMenuFromText (text : String) : List MenuItem :=
  let lines := ((jsSplit text '\n').map jsTrim).filter fun l => l.length > 0
  parseMenuLines lines "General"

/-! ## Structured-endpoint stage (`fetchFromAPI` / `parseAPIResponse`,
src/server.js lines 1356-1447)

JSON response bodies are modelled by `APIData`: each of the three
recognized fields (`menu`, `items`, `categories`) is `some` exactly when
the field is present and is an array (the JS code tests
`data.menu && Array.isArray(data.menu)` and so on).  Item `price` fields
are integer minor-unit values (`Nat`); a present-but-zero price is falsy
in JS, which the pipeline's truthiness test observes. -/

structure APIItem where
  name : Option String
  description : Option String
  price : Option Nat
  category : Option String
deriving DecidableEq, Repr

structure APICategory where
  name : Option String
  items : Option (List APIItem)
deriving DecidableEq, Repr

structure APIData where
  menu : Option (List APICategory)
  items : Option (List APIItem)
  categories : Option (List APICategory)
deriving DecidableEq, Repr

/-- `(p / 100).toFixed(2)` for an integer minor-unit amount `p ≥ 0`:
the whole-dollar part, a dot, and the cent part padded to two digits. -/
def toFixed2 (p : Nat) : String :=
  toString (p / 100) ++ "." ++
    (if p % 100 < 10 then "0" else "") ++ toString (p % 100)

/-- `item.price ? `$${(item.price / 100).toFixed(2)}` : 'Price not available'`:
JS truthiness makes a missing price and a zero price both take the
sentinel branch. -/
def jsPriceString (price : Option Nat) : String :=
  match price with
  | some p => if p ≠ 0 then "$" ++ toFixed2 p else "Price not available"
  | none => "Price not available"

/-- The item record built inside a category of the `menu` / `categories`
shapes. -/
def mkCategorizedItem (category : APICategory) (item : APIItem) : MenuItem :=
  { name := jsOptStrOr item.name "Unknown Item",
    description := jsOptStrOr item.description "",
    price := jsPriceString item.price,
    category := jsOptStrOr category.name "General" }

/-- The item record built in the flat `items` shape. -/
def mkFlatItem (item : APIItem) : MenuItem :=
  { name := jsOptStrOr item.name "Unknown Item",
    description := jsOptStrOr item.description "",
    price := jsPriceString item.price,
    category := jsOptStrOr item.category "General" }

/-- `parseAPIResponse(data)`: the `if / else if / else if` chain over the
three recognized response shapes; each `forEach`-push loop is a bind. -/
def parseAPIResponse (data : APIData) : List MenuItem :=
  match data.menu with
  | some menu =>
    menu.flatMap fun category =>
      match category.items with
      | some items => items.map (mkCategorizedItem category)
      | none => []
  | none =>
    match data.items with
    | some items => items.map mkFlatItem
    | none =>
      match data.categories with
      | some categories =>
        categories.flatMap fun category =>
          match category.items with
          | some items => items.map (mkCategorizedItem category)
          | none => []
      | none => []

/-- The source `APIItem`s enumerated by whichever shape
`parseAPIResponse` selects, in enumeration order. -/
def sourceItems (data : APIData) : List APIItem :=
  match data.menu with
  | some menu => menu.flatMap fun category => category.items.getD []
  | none =>
    match data.items with
    | some items => items
    | none =>
      match data.categories with
      | some categories => categories.flatMap fun category => category.items.getD []
      | none => []

/-- `fetchFromAPI()`: iterate the candidate endpoint responses (one entry
per URL; `none` models a transport error, a non-2xx response or a
non-object body — all caught and skipped); return the first response
whose parse yields at least one item, else `null`. -/
def fetchFromAPI : List (Option APIData) → Option MenuSnapshot
  | [] => none
  | none :: rest => fetchFromAPI rest
  | some data :: rest =>
    let menuItems := parseAPIResponse data
    if menuItems.length > 0 then
      some { items := menuItems,
             categories := firstSeenDedup (menuItems.map (·.category)),
             source := none,
             cached := false }
    else
      fetchFromAPI rest

/-! ## Rendered-page stage (`fetchWithPuppeteer`,
src/server.js lines 1449-1715)

The browser environment is modelled by the category-tab labels the first
`page.evaluate` discovers and, per category iteration, the outcome of
the click-and-extract pass.  A pass yields the `div` elements the second
`page.evaluate` scans (text content plus class list), or fails (click
target not found, or an error thrown during the pass — both logged and
skipped by the `catch` of the loop body).  The in-page candidate
filtering and name/description parsing is translated below. -/

/-- A match attempt of `\d+\.\d{2}` at the start of `l` (the part of the
price regex `\$\d+\.\d{2}` after the `$`); on success returns the
matched characters and the remainder after the match. -/
def priceTokenAt (l : List Char) : Option (List Char × List Char) :=
  if (l.takeWhile Char.isDigit).isEmpty then none
  else
    match l.dropWhile Char.isDigit with
    | '.' :: d1 :: d2 :: rest =>
      if d1.isDigit && d2.isDigit then
        some (l.takeWhile Char.isDigit ++ ['.', d1, d2], rest)
      else none
    | _ => none

/-- The scan loop of `text.match(/\$\d+\.\d{2}/g)`.  The `fuel`
parameter only bounds recursion depth (every step consumes at least one
character, so `fuel = l.length` never runs out); it makes the function
structurally recursive. -/
def scanPricesAux : Nat → List Char → List (List Char)
  | 0, _ => []
  | _, [] => []
  | fuel + 1, c :: rest =>
    if c = '$' then
      match priceTokenAt rest with
      | some (tok, after) => ('$' :: tok) :: scanPricesAux fuel after
      | none => scanPricesAux fuel rest
    else
      scanPricesAux fuel rest

/-- `text.match(/\$\d+\.\d{2}/g)`: left-to-right global scan collecting
each price token and resuming after it. -/
def scanPrices (l : List Char) : List (List Char) :=
  scanPricesAux l.length l

/-- The optional range tail `\s*-\s*\$\d+\.\d{2}` of the price-stripping
regex, tried at the start of `l`; on success returns the remainder. -/
def matchRangeSuffix (l : List Char) : Option (List Char) :=
  match l.dropWhile jsWhitespace with
  | '-' :: r2 =>
    match r2.dropWhile jsWhitespace with
    | '$' :: r3 =>
      match priceTokenAt r3 with
      | some (_, rest) => some rest
      | none => none
    | _ => none
  | _ => none

/-- The replace loop of
`text.replace(/\$\d+\.\d{2}(\s*-\s*\$\d+\.\d{2})?/g, '')`, fuel-bounded
exactly as `scanPricesAux` is. -/
def stripPricesAux : Nat → List Char → List Char
  | 0, l => l
  | _, [] => []
  | fuel + 1, c :: rest =>
    if c = '$' then
      match priceTokenAt rest with
      | some (_, after) =>
        match matchRangeSuffix after with
        | some after2 => stripPricesAux fuel after2
        | none => stripPricesAux fuel after
      | none => c :: stripPricesAux fuel rest
    else
      c :: stripPricesAux fuel rest

/-- `text.replace(/\$\d+\.\d{2}(\s*-\s*\$\d+\.\d{2})?/g, '')`: drop every
price token together with an immediately following `- $price` tail. -/
def stripPrices (l : List Char) : List Char :=
  stripPricesAux l.length l

/-- `name.replace(/^(Add to cart|Remove|Quantity:?\s*\d*)/, '')`:
remove one leading alternative, tried in the regex's order. -/
def stripNamePrefix (l : List Char) : List Char :=
  if prefixOf "Add to cart".toList l then l.drop 11
  else if prefixOf "Remove".toList l then l.drop 6
  else if prefixOf "Quantity".toList l then
    let r1 := l.drop 8
    let r2 := match r1 with
      | ':' :: t => t
      | _ => r1
    (r2.dropWhile jsWhitespace).dropWhile Char.isDigit
  else l

/-- A `div` element seen by the in-page extraction: its
`textContent` and its class list. -/
structure DivNode where
  textContent : String
  classes : List String
deriving DecidableEq, Repr

/-- The `menuItemCandidates` entries of the in-page extraction. -/
structure Candidate where
  text : String
  priceRange : String
deriving DecidableEq, Repr

/-- The first in-page loop: decide whether a `div` becomes a candidate
and compute its `priceRange` (`first - last` when several tokens). -/
def candidateOfDiv (d : DivNode) : Option Candidate :=
  let text := jsTrim d.textContent
  if jsIncludes text "$" && text.length > 5 && text.length < 300 &&
      !(d.classes.contains "cat-items") && !(d.classes.contains "navbar") &&
      !(jsIncludes text "$0.00") then
    let pm := scanPrices text.toList
    if pm.length ≥ 1 then
      let priceRange : String :=
        if pm.length > 1 then ⟨pm.headD []⟩ ++ " - " ++ (⟨pm.getLastD []⟩ : String)
        else ⟨pm.headD []⟩
      some ⟨text, priceRange⟩
    else
      none
  else
    none

/-- The second in-page loop: parse a candidate into a `MenuItem` for the
current category, or reject it as navigation/UI noise. -/
def processCandidate (categoryName : String) (c : Candidate) : Option MenuItem :=
  let cleanText := jsTrim ⟨stripPrices c.text.toList⟩
  let lines := ((splitOnChar '\n' cleanText.toList).map fun l => jsTrim ⟨l⟩).filter
      fun l => l.length > 0 && l.length < 100
  match lines with
  | [] => none
  | line0 :: restLines =>
    let name := jsTrim ⟨stripNamePrefix line0.toList⟩
    let isNavigationText :=
      jsIncludes name "Boston" || jsIncludes name "Change Locations" ||
      jsIncludes name "Pickup Details" || jsIncludes name "State Street" ||
      jsIncludes name "Search" || jsIncludes name "200 State" ||
      jsIncludes name "Edit" || jsIncludes name "ASAP" ||
      jsStartsWith name categoryName ||
      jsIncludes name (categoryName ++ "Search") ||
      jsIncludes name "  " ||
      (splitOnChar ' ' name.toList).length > 5 ||
      name.length < 3 || name.length > 50
    if !isNavigationText && name.length > 2 && name.length < 80 then
      let description : String :=
        ⟨(List.intercalate [' '] (restLines.map String.toList)).take 200⟩
      some ⟨name, description, c.priceRange, categoryName⟩
    else
      none

/-- One category pass of the second `page.evaluate`: candidates, then
item parsing, preserving document order. -/
def extractCategoryItems (categoryName : String) (divs : List DivNode) : List MenuItem :=
  (divs.filterMap candidateOfDiv).filterMap (processCandidate categoryName)

/-- Outcome of one category iteration of the scraping loop. -/
inductive PassOutcome where
  /-- The click target was not found, or the pass threw (both are caught
  and the loop continues with the next category). -/
  | failed : PassOutcome
  /-- The pass succeeded and the extraction scanned these `div`s. -/
  | divs : List DivNode → PassOutcome
deriving DecidableEq, Repr

/-- Environment of a `fetchWithPuppeteer` run: whether launch/navigation
threw outside the per-category loop (caught by the outer `catch`, which
returns `null`), the category-tab labels found, and one pass outcome per
label. -/
structure PuppeteerEnv where
  crashed : Bool
  categories : List String
  passes : List PassOutcome
deriving DecidableEq, Repr

/-- The category loop accumulating `allItems`; a missing pass outcome is
treated as a failed pass. -/
def runPasses : List String → List PassOutcome → List MenuItem
  | [], _ => []
  | _ :: cats, [] => runPasses cats []
  | cat :: cats, pass :: rest =>
    (match pass with
     | .failed => []
     | .divs divs => extractCategoryItems cat divs) ++ runPasses cats rest

/-- The duplicate-removal loop over `allItems`, keyed by
`` `${item.name}-${item.category}` `` with a `seen` set. -/
def dedupKeyed : List MenuItem → List String → List MenuItem
  | [], _ => []
  | item :: rest, seen =>
    let key := item.name ++ "-" ++ item.category
    if key ∈ seen then dedupKeyed rest seen
    else item :: dedupKeyed rest (key :: seen)

/-- `uniqueItems`: first occurrence of each `name-category` key wins. -/
def dedupByNameCategory (items : List MenuItem) : List MenuItem :=
  dedupKeyed items []

/-- `fetchWithPuppeteer()`: run every category pass, deduplicate, and
return a snapshot tagged `"puppeteer"` when at least one unique item was
found; return `null` on an outer error or when nothing was found.  The
snapshot's `categories` are the tab labels, not the item categories. -/
def fetchWithPuppeteer (env : PuppeteerEnv) : Option MenuSnapshot :=
  if env.crashed then none
  else
    let allItems := runPasses env.categories env.passes
    let uniqueItems := dedupByNameCategory allItems
    if uniqueItems.length > 0 then
      some { items := uniqueItems,
             categories := env.categories,
             source := some "puppeteer",
             cached := false }
    else
      none

/-! ## Static-page stage (`fetchFromWebsite` / `extractText`,
src/server.js lines 1717-1829)

The fetched document is modelled by: the outcome of the HTTP request
(`requestError`), and the cheerio view of the page — either the element
list matched by the first successful container selector
(`structuredElems = some elems`, each element carrying the results of
the `extractText` calls run against it: the empty string when no field
selector yielded text, a trimmed non-empty string otherwise), or no
container selector matching anything (`structuredElems = none`), in
which case the extraction falls back to `parseMenuFromText` over the
body text. -/

/-- One element matched by the winning container selector, as seen
through the `extractText` helper: `name`, `description`, `price` from
the field-selector lists, and the two ancestor-category probes
(`.menu-section` and `.category`). -/
structure ScrapedElem where
  name : String
  description : String
  price : String
  sectionCategory : String
  ancestorCategory : String
deriving DecidableEq, Repr

/-- Environment of a `fetchFromWebsite` run. -/
structure WebsiteEnv where
  requestError : Option String
  structuredElems : Option (List ScrapedElem)
  bodyText : String
deriving DecidableEq, Repr

/-- The per-element body of the selector loop: `if (name)` guards the
push; `description`, `price` and `category` fall back through JS
truthiness. -/
def scrapedItem (e : ScrapedElem) : Option MenuItem :=
  if e.name ≠ "" then
    let category := jsStrOr e.sectionCategory (jsStrOr e.ancestorCategory "General")
    some { name := jsTrim e.name,
           description := if e.description ≠ "" then jsTrim e.description else "",
           price := if e.price ≠ "" then jsTrim e.price else "Price not available",
           category := jsStrOr (jsTrim category) "General" }
  else
    none

/-- The `menuItems` accumulated by `fetchFromWebsite`: the winning
container selector's elements when one matched, else the plain-text
heuristic over the body text. -/
def websiteMenuItems (env : WebsiteEnv) : List MenuItem :=
  match env.structuredElems with
  | some elems => elems.filterMap scrapedItem
  | none => parseMenuFromText env.bodyText

/-- `fetchFromWebsite()`: fetch the page (a transport error propagates),
extract items via the first matching container selector or the
plain-text heuristic, then fail when nothing valid (or leaked script
content) was found, else return a snapshot tagged `"static_html"`. -/
def fetchFromWebsite (env : WebsiteEnv) : Except String MenuSnapshot :=
  match env.requestError with
  | some e => .error e
  | none =>
    let menuItems := websiteMenuItems env
    if menuItems.length = 0 || isJavaScriptCode menuItems then
      .error "Unable to extract valid menu items from website - only found JavaScript configuration data"
    else
      .ok { items := menuItems,
            categories := firstSeenDedup (menuItems.map (·.category)),
            source := some "static_html",
            cached := false }

/-! ## Orchestrator (`fetchMenuData`, src/server.js lines 1289-1327)

The three stage calls are `await`ed in sequence; the embedding takes the
environment of each stage and additionally records, in order, which
stages were invoked during the run, so that stage-skipping is a provable
property.  `fetchFromAPI` and `fetchWithPuppeteer` catch their own
errors and return `null`; only `fetchFromWebsite` can throw into
`fetchMenuData`'s `catch`, which serves the existing cache entry of any
age if one exists and otherwise rethrows with the `Failed to fetch menu
data: ` prefix. -/

inductive Stage where
  | api : Stage
  | puppeteer : Stage
  | web : Stage
deriving DecidableEq, Repr

/-- Environment of a full `fetchMenuData` run. -/
structure FetchEnv where
  apiResponses : List (Option APIData)
  pup : PuppeteerEnv
  web : WebsiteEnv
deriving DecidableEq, Repr

/-- The `try`/`catch` body of `fetchMenuData` (the fresh-fetch path,
after the cache-validity check). -/
def fetchMenuDataFresh (st : CacheState) (now : Int) (env : FetchEnv) :
    Except String MenuSnapshot × CacheState × List Stage :=
  let afterPuppeteer : List Stage → Except String MenuSnapshot × CacheState × List Stage :=
    fun invoked =>
      match fetchFromWebsite env.web with
      | .ok menuData =>
        (.ok menuData, updateCache st menuData now, invoked ++ [Stage.web])
      | .error e =>
        match st.menuCache with
        | some cached => (.ok cached, st, invoked ++ [Stage.web])
        | none => (.error ("Failed to fetch menu data: " ++ e), st, invoked ++ [Stage.web])
  let afterAPI : List Stage → Except String MenuSnapshot × CacheState × List Stage :=
    fun invoked =>
      match fetchWithPuppeteer env.pup with
      | some menuData =>
        if menuData.items.length > 0 then
          (.ok menuData, updateCache st menuData now, invoked ++ [Stage.puppeteer])
        else
          afterPuppeteer (invoked ++ [Stage.puppeteer])
      | none => afterPuppeteer (invoked ++ [Stage.puppeteer])
  match fetchFromAPI env.apiResponses with
  | some menuData =>
    if menuData.items.length > 0 then
      (.ok menuData, updateCache st menuData now, [Stage.api])
    else
      afterAPI [Stage.api]
  | none => afterAPI [Stage.api]

/-- `fetchMenuData()`: serve a valid cache entry without invoking any
stage, else run the fresh-fetch path. -/
def fetchMenuData (st : CacheState) (now : Int) (cacheExpiryMinutes : ℚ)
    (env : FetchEnv) : Except String MenuSnapshot × CacheState × List Stage :=
  match st.menuCache with
  | some cached =>
    if isCacheValid st.menuCache st.cacheTimestamp now cacheExpiryMinutes then
      (.ok cached, st, [])
    else
      fetchMenuDataFresh st now env
  | none => fetchMenuDataFresh st now env

/-! ## Derived notions and concrete inputs used by the claim theorems -/

/-- The deduplication key of the rendered-page stage:
`` `${item.name}-${item.category}` ``. -/
def nameCatKey (it : MenuItem) : String :=
  it.name ++ "-" ++ it.category

/-- A stage outcome that contributes no items: either `null`, or a
snapshot with an empty item list. -/
def stageYieldsNoItems (r : Option MenuSnapshot) : Prop :=
  ∀ md, r = some md → md.items = []

/-- A `div` whose text parses to the single item `Espresso / $3.50`. -/
def espressoDiv : DivNode := ⟨"Espresso\n$3.50", []⟩

/-- The item `espressoDiv` yields in category `COFFEE`. -/
def espressoItem : MenuItem := ⟨"Espresso", "", "$3.50", "COFFEE"⟩

/-- A rendered-page run that discovers the tabs `COFFEE` and `TEA` but
extracts an item only from the `COFFEE` pass. -/
def twoTabsPupEnv : PuppeteerEnv :=
  ⟨false, ["COFFEE", "TEA"], [.divs [espressoDiv], .failed]⟩

/-- Full-run environment around `twoTabsPupEnv` (structured endpoints
all unreachable). -/
def twoTabsFetchEnv : FetchEnv :=
  ⟨[], twoTabsPupEnv, ⟨some "unreachable", none, ""⟩⟩

/-- The snapshot `twoTabsPupEnv` produces. -/
def twoTabsSnap : MenuSnapshot :=
  ⟨[espressoItem], ["COFFEE", "TEA"], some "puppeteer", false⟩

/-- An API response whose single item name is leaked script content. -/
def leakAPIData : APIData :=
  ⟨none, some [⟨some "window.LOCATIONS = [1]", none, some 425, none⟩], none⟩

/-- The normalized item `leakAPIData` yields. -/
def leakItem : MenuItem := ⟨"window.LOCATIONS = [1]", "", "$4.25", "General"⟩

/-- The snapshot `fetchFromAPI [some leakAPIData]` yields. -/
def leakSnap : MenuSnapshot := ⟨[leakItem], ["General"], none, false⟩

/-- Full-run environment in which the structured-endpoint stage yields
`leakSnap`. -/
def leakFetchEnv : FetchEnv :=
  ⟨[some leakAPIData], ⟨true, [], []⟩, ⟨some "unreachable", none, ""⟩⟩

/-- A `div` whose text parses to the single item `Latte / $4.00`. -/
def latteDiv : DivNode := ⟨"Latte\n$4.00", []⟩

/-- Two category passes that each discover `Latte` in `COFFEE`. -/
def twoLattePupEnv : PuppeteerEnv :=
  ⟨false, ["COFFEE", "COFFEE"], [.divs [latteDiv], .divs [latteDiv]]⟩

/-- Category passes producing the items `("Latte-Iced", "COFFEE")` and
`("Latte", "Iced-COFFEE")`, whose deduplication keys collide. -/
def collidingPupEnv : PuppeteerEnv :=
  ⟨false, ["COFFEE", "Iced-COFFEE"],
    [.divs [⟨"Latte-Iced\n$4.00", []⟩], .divs [⟨"Latte\n$4.50", []⟩]]⟩

/-- First-discovered item of `collidingPupEnv`. -/
def latteIcedItem : MenuItem := ⟨"Latte-Iced", "", "$4.00", "COFFEE"⟩

/-- Second-discovered item of `collidingPupEnv` (distinct name and
category, same key). -/
def icedLatteItem : MenuItem := ⟨"Latte", "", "$4.50", "Iced-COFFEE"⟩

/-- A flat-shape API response whose single item has a present price of
zero minor units. -/
def zeroPriceAPIData : APIData :=
  ⟨none, some [⟨some "Water", none, some 0, none⟩], none⟩

/-- Full-run environment in which every stage fails. -/
def allFailFetchEnv : FetchEnv :=
  ⟨[], ⟨true, [], []⟩, ⟨some "boom", none, ""⟩⟩

/-- The snapshot `twoLattePupEnv` produces: one deduplicated item. -/
def latteSnap : MenuSnapshot :=
  ⟨[⟨"Latte", "", "$4.00", "COFFEE"⟩], ["COFFEE", "COFFEE"], some "puppeteer", false⟩

/-- A static-page environment whose body text is the spec's plain-text
example. -/
def sampleWebEnv : WebsiteEnv :=
  ⟨none, none, "COFFEE\nEspresso $3.50\nTEA\nGreen Tea $2.50"⟩

/-- The snapshot `sampleWebEnv` produces. -/
def sampleWebSnap : MenuSnapshot :=
  ⟨[⟨"Espresso", "", "$3.50", "COFFEE"⟩, ⟨"Green Tea", "", "$2.50", "TEA"⟩],
    ["COFFEE", "TEA"], some "static_html", false⟩

end MenuMpc

namespace MenuMpc

/-! ## Helper lemmas -/

theorem foldlDedup_mem : ∀ (l acc : List String) (c : String),
    (c ∈ l.foldl (fun acc x => if x ∈ acc then acc else acc ++ [x]) acc) ↔
      c ∈ acc ∨ c ∈ l
  | [], acc, c => by simp
  | x :: l, acc, c => by
    simp only [List.foldl_cons]
    rw [foldlDedup_mem l _ c]
    by_cases hx : x ∈ acc
    · rw [if_pos hx]
      constructor
      · rintro (h | h)
        · exact Or.inl h
        · exact Or.inr (List.mem_cons_of_mem _ h)
      · rintro (h | h)
        · exact Or.inl h
        · rcases List.mem_cons.mp h with rfl | h
          · exact Or.inl hx
          · exact Or.inr h
    · rw [if_neg hx]
      constructor
      · rintro (h | h)
        · rcases List.mem_append.mp h with h | h
          · exact Or.inl h
          · rcases List.mem_singleton.mp h with rfl
            exact Or.inr (List.mem_cons_self _ _)
        · exact Or.inr (List.mem_cons_of_mem _ h)
      · rintro (h | h)
        · exact Or.inl (List.mem_append.mpr (Or.inl h))
        · rcases List.mem_cons.mp h with rfl | h
          · exact Or.inl (List.mem_append.mpr (Or.inr (List.mem_singleton.mpr rfl)))
          · exact Or.inr h

theorem foldlDedup_nodup : ∀ (l acc : List String), acc.Nodup →
    (l.foldl (fun acc x => if x ∈ acc then acc else acc ++ [x]) acc).Nodup
  | [], _, h => h
  | x :: l, acc, h => by
    simp only [List.foldl_cons]
    by_cases hx : x ∈ acc
    · rw [if_pos hx]
      exact foldlDedup_nodup l acc h
    · rw [if_neg hx]
      refine foldlDedup_nodup l _ ?_
      rw [List.nodup_append]
      refine ⟨h, List.nodup_singleton x, fun a ha hb => ?_⟩
      rcases List.mem_singleton.mp hb with rfl
      exact hx ha

theorem firstSeenDedup_mem (l : List String) (c : String) :
    c ∈ firstSeenDedup l ↔ c ∈ l := by
  unfold firstSeenDedup
  rw [foldlDedup_mem]
  simp

theorem firstSeenDedup_nodup (l : List String) : (firstSeenDedup l).Nodup :=
  foldlDedup_nodup l [] List.nodup_nil

theorem dedupKeyed_subset : ∀ (items : List MenuItem) (seen : List String)
    (it : MenuItem), it ∈ dedupKeyed items seen → it ∈ items
  | [], _, _, h => by simp [dedupKeyed] at h
  | item :: rest, seen, it, h => by
    simp only [dedupKeyed] at h
    split at h
    · exact List.mem_cons_of_mem _ (dedupKeyed_subset rest seen it h)
    · rcases List.mem_cons.mp h with rfl | h
      · exact List.mem_cons_self _ _
      · exact List.mem_cons_of_mem _ (dedupKeyed_subset rest _ it h)

theorem dedupKeyed_keys : ∀ (items : List MenuItem) (seen : List String),
    (dedupKeyed items seen).Pairwise (fun a b => nameCatKey a ≠ nameCatKey b) ∧
      ∀ it ∈ dedupKeyed items seen, nameCatKey it ∉ seen
  | [], seen => by simp [dedupKeyed]
  | item :: rest, seen => by
    simp only [dedupKeyed]
    split
    · exact dedupKeyed_keys rest seen
    · rename_i hnot
      obtain ⟨hpw, hseen⟩ := dedupKeyed_keys rest (nameCatKey item :: seen)
      constructor
      · refine List.pairwise_cons.mpr ⟨fun b hb hkey => ?_, hpw⟩
        exact (hseen b hb) (hkey ▸ List.mem_cons_self _ _)
      · intro it hit
        rcases List.mem_cons.mp hit with rfl | hit
        · exact hnot
        · exact fun hmem => (hseen it hit) (List.mem_cons_of_mem _ hmem)

theorem dedupByNameCategory_pairwise (items : List MenuItem) :
    (dedupByNameCategory items).Pairwise (fun a b => nameCatKey a ≠ nameCatKey b) :=
  (dedupKeyed_keys items []).1

theorem processCandidate_some_category {cat : String} {c : Candidate}
    {it : MenuItem} (h : processCandidate cat c = some it) : it.category = cat := by
  simp only [processCandidate] at h
  split at h
  · exact Option.noConfusion h
  · split at h
    · rcases Option.some.injEq .. ▸ h with rfl
      rfl
    · exact Option.noConfusion h

theorem extractCategoryItems_category {cat : String} {divs : List DivNode}
    {it : MenuItem} (h : it ∈ extractCategoryItems cat divs) : it.category = cat := by
  unfold extractCategoryItems at h
  rcases List.mem_filterMap.mp h with ⟨c, -, hc⟩
  exact processCandidate_some_category hc

theorem runPasses_category : ∀ (cats : List String) (passes : List PassOutcome)
    (it : MenuItem), it ∈ runPasses cats passes → it.category ∈ cats
  | [], _, it, h => by simp [runPasses] at h
  | c :: cats, [], it, h => by
    simp only [runPasses] at h
    exact List.mem_cons_of_mem _ (runPasses_category cats [] it h)
  | c :: cats, p :: ps, it, h => by
    simp only [runPasses, List.mem_append] at h
    rcases h with h | h
    · cases p with
      | failed => simp at h
      | divs divs =>
        rw [extractCategoryItems_category h]
        exact List.mem_cons_self _ _
    · exact List.mem_cons_of_mem _ (runPasses_category cats ps it h)

/-- Inversion for a successful structured-endpoint stage. -/
theorem fetchFromAPI_some : ∀ (rs : List (Option APIData)) {md : MenuSnapshot},
    fetchFromAPI rs = some md →
    md.items ≠ [] ∧ md.categories = firstSeenDedup (md.items.map (·.category)) ∧
      md.source = none
  | [], md, h => by simp [fetchFromAPI] at h
  | none :: rest, md, h => fetchFromAPI_some rest (by simpa [fetchFromAPI] using h)
  | some d :: rest, md, h => by
    simp only [fetchFromAPI] at h
    split at h
    · rcases Option.some.injEq .. ▸ h with rfl
      rename_i hlen
      refine ⟨fun hnil => ?_, rfl, rfl⟩
      rw [show parseAPIResponse d = ([] : List MenuItem) from hnil] at hlen
      simp at hlen
    · exact fetchFromAPI_some rest h

/-- Inversion for a successful rendered-page stage. -/
theorem fetchWithPuppeteer_some {env : PuppeteerEnv} {md : MenuSnapshot}
    (h : fetchWithPuppeteer env = some md) :
    md.items = dedupByNameCategory (runPasses env.categories env.passes) ∧
      md.categories = env.categories ∧ md.items ≠ [] := by
  simp only [fetchWithPuppeteer] at h
  split at h
  · exact Option.noConfusion h
  · split at h
    · rcases Option.some.injEq .. ▸ h with rfl
      rename_i hlen
      refine ⟨rfl, rfl, fun hnil => ?_⟩
      rw [show dedupByNameCategory (runPasses env.categories env.passes) = ([] : List MenuItem)
        from hnil] at hlen
      simp at hlen
    · exact Option.noConfusion h

/-- Inversion for a successful static-page stage. -/
theorem fetchFromWebsite_ok {env : WebsiteEnv} {md : MenuSnapshot}
    (h : fetchFromWebsite env = .ok md) :
    md.items ≠ [] ∧ isJavaScriptCode md.items = false ∧
      md.categories = firstSeenDedup (md.items.map (·.category)) := by
  simp only [fetchFromWebsite] at h
  split at h
  · exact Except.noConfusion h
  · split at h
    · exact Except.noConfusion h
    · rename_i hguard
      rcases Except.ok.injEq .. ▸ h with rfl
      simp only [Bool.or_eq_true, decide_eq_true_eq, not_or, Bool.not_eq_true] at hguard
      exact ⟨fun hnil =>
        hguard.1 (by rw [show websiteMenuItems env = ([] : List MenuItem) from hnil]; rfl),
        hguard.2, rfl⟩

/-- With an invalid (or absent) cache, `fetchMenuData` runs the fresh
path. -/
theorem fetchMenuData_of_invalid {st : CacheState} {now : Int} {ttl : ℚ}
    (env : FetchEnv)
    (hcv : isCacheValid st.menuCache st.cacheTimestamp now ttl = false) :
    fetchMenuData st now ttl env = fetchMenuDataFresh st now env := by
  unfold fetchMenuData
  split
  · rw [hcv]
    simp
  · rfl

end MenuMpc

namespace MenuMpc

/-! ## Orchestrator computation lemmas -/

theorem isCacheValid_some_iff (snap : MenuSnapshot) (ts now : Int) (ttl : ℚ) :
    isCacheValid (some snap) (some ts) now ttl = true ↔
      ((now - ts : Int) : ℚ) < ttl * (1000 * 60) := by
  unfold isCacheValid
  rw [decide_eq_true_iff]
  rw [div_lt_iff₀ (by norm_num : (0 : ℚ) < 1000 * 60)]

theorem fetchMenuDataFresh_api {st : CacheState} {now : Int} {env : FetchEnv}
    {md : MenuSnapshot} (hA : fetchFromAPI env.apiResponses = some md)
    (hlen : md.items ≠ []) :
    fetchMenuDataFresh st now env = (.ok md, updateCache st md now, [Stage.api]) := by
  have hpos : md.items.length > 0 := List.length_pos.mpr hlen
  simp only [fetchMenuDataFresh, hA, hpos, if_true]

theorem fetchMenuDataFresh_pup {st : CacheState} {now : Int} {env : FetchEnv}
    {md : MenuSnapshot} (hA : stageYieldsNoItems (fetchFromAPI env.apiResponses))
    (hP : fetchWithPuppeteer env.pup = some md) (hlen : md.items ≠ []) :
    fetchMenuDataFresh st now env =
      (.ok md, updateCache st md now, [Stage.api, Stage.puppeteer]) := by
  have hpos : md.items.length > 0 := List.length_pos.mpr hlen
  simp only [fetchMenuDataFresh]
  rcases hA0 : fetchFromAPI env.apiResponses with - | mdA
  · simp only [hP, hpos, if_true]
    rfl
  · have hAe : mdA.items = [] := hA mdA hA0
    have : ¬ mdA.items.length > 0 := by rw [hAe]; simp
    simp only [this, if_false, hP, hpos, if_true]
    rfl

theorem fetchMenuDataFresh_web {st : CacheState} {now : Int} {env : FetchEnv}
    (hA : stageYieldsNoItems (fetchFromAPI env.apiResponses))
    (hP : stageYieldsNoItems (fetchWithPuppeteer env.pup)) :
    fetchMenuDataFresh st now env =
      match fetchFromWebsite env.web with
      | .ok md => (.ok md, updateCache st md now, [Stage.api, Stage.puppeteer, Stage.web])
      | .error e =>
        match st.menuCache with
        | some cached => (.ok cached, st, [Stage.api, Stage.puppeteer, Stage.web])
        | none => (.error ("Failed to fetch menu data: " ++ e), st,
            [Stage.api, Stage.puppeteer, Stage.web]) := by
  simp only [fetchMenuDataFresh]
  have webcase :
      (match fetchFromWebsite env.web with
        | .ok menuData =>
          (Except.ok menuData, updateCache st menuData now,
            [Stage.api, Stage.puppeteer] ++ [Stage.web])
        | .error e =>
          match st.menuCache with
          | some cached => (Except.ok cached, st, [Stage.api, Stage.puppeteer] ++ [Stage.web])
          | none => (Except.error ("Failed to fetch menu data: " ++ e), st,
              [Stage.api, Stage.puppeteer] ++ [Stage.web])) =
      (match fetchFromWebsite env.web with
        | .ok md => (Except.ok md, updateCache st md now, [Stage.api, Stage.puppeteer, Stage.web])
        | .error e =>
          match st.menuCache with
          | some cached => (Except.ok cached, st, [Stage.api, Stage.puppeteer, Stage.web])
          | none => (Except.error ("Failed to fetch menu data: " ++ e), st,
              [Stage.api, Stage.puppeteer, Stage.web])) := by
    rcases fetchFromWebsite env.web with e | md
    · rcases st.menuCache with - | cached <;> rfl
    · rfl
  rcases hA0 : fetchFromAPI env.apiResponses with - | mdA
  · rcases hP0 : fetchWithPuppeteer env.pup with - | mdP
    · exact webcase
    · have hPe : mdP.items = [] := hP mdP hP0
      have : ¬ mdP.items.length > 0 := by rw [hPe]; simp
      simp only [this, if_false]
      exact webcase
  · have hAe : mdA.items = [] := hA mdA hA0
    have : ¬ mdA.items.length > 0 := by rw [hAe]; simp
    simp only [this, if_false]
    rcases hP0 : fetchWithPuppeteer env.pup with - | mdP
    · exact webcase
    · have hPe : mdP.items = [] := hP mdP hP0
      have : ¬ mdP.items.length > 0 := by rw [hPe]; simp
      simp only [this, if_false]
      exact webcase

end MenuMpc

namespace MenuMpc

/-! ## Claims C5, C1, C3, C4 -/

/-- On an empty cache, a successful fresh fetch always carries a
non-empty item list (every success branch checks or guarantees it). -/
theorem fetchMenuDataFresh_ok_items {now : Int} {env : FetchEnv} {md : MenuSnapshot}
    {st2 : CacheState} {tr : List Stage}
    (h : fetchMenuDataFresh ⟨none, none⟩ now env = (.ok md, st2, tr)) :
    md.items ≠ [] := by
  simp only [fetchMenuDataFresh] at h
  split at h
  · split at h
    · rename_i mdA hA hpos
      rcases Prod.mk.injEq .. ▸ h with ⟨h1, -⟩
      rcases Except.ok.injEq .. ▸ h1 with rfl
      exact List.length_pos.mp hpos
    · split at h
      · split at h
        · rename_i hpos
          rcases Prod.mk.injEq .. ▸ h with ⟨h1, -⟩
          rcases Except.ok.injEq .. ▸ h1 with rfl
          exact List.length_pos.mp hpos
        · split at h
          · rename_i mdW hW
            rcases Prod.mk.injEq .. ▸ h with ⟨h1, -⟩
            rcases Except.ok.injEq .. ▸ h1 with rfl
            exact (fetchFromWebsite_ok hW).1
          · rcases Prod.mk.injEq .. ▸ h with ⟨h1, -⟩
            exact Except.noConfusion h1
      · split at h
        · rename_i mdW hW
          rcases Prod.mk.injEq .. ▸ h with ⟨h1, -⟩
          rcases Except.ok.injEq .. ▸ h1 with rfl
          exact (fetchFromWebsite_ok hW).1
        · rcases Prod.mk.injEq .. ▸ h with ⟨h1, -⟩
          exact Except.noConfusion h1
  · split at h
    · split at h
      · rename_i hpos
        rcases Prod.mk.injEq .. ▸ h with ⟨h1, -⟩
        rcases Except.ok.injEq .. ▸ h1 with rfl
        exact List.length_pos.mp hpos
      · split at h
        · rename_i mdW hW
          rcases Prod.mk.injEq .. ▸ h with ⟨h1, -⟩
          rcases Except.ok.injEq .. ▸ h1 with rfl
          exact (fetchFromWebsite_ok hW).1
        · rcases Prod.mk.injEq .. ▸ h with ⟨h1, -⟩
          exact Except.noConfusion h1
    · split at h
      · rename_i mdW hW
        rcases Prod.mk.injEq .. ▸ h with ⟨h1, -⟩
        rcases Except.ok.injEq .. ▸ h1 with rfl
        exact (fetchFromWebsite_ok hW).1
      · rcases Prod.mk.injEq .. ▸ h with ⟨h1, -⟩
        exact Except.noConfusion h1

/-- C5: cache validity is the strict comparison `age < ttl`:
`isCacheValid` returns true exactly when an entry and a timestamp exist
and `now - cacheTimestamp` is strictly below the configured TTL; an
entry one second younger than the TTL bound is valid, while an entry
aged exactly the TTL, or one second more, is invalid. -/
theorem c5_cache_ttl_strict (mc : Option MenuSnapshot) (mts : Option Int)
    (now : Int) (ttl : ℚ) (snap : MenuSnapshot) (ttlMin : Int) :
    (isCacheValid mc mts now ttl = true ↔
      ∃ s t, mc = some s ∧ mts = some t ∧ ((now - t : Int) : ℚ) < ttl * (1000 * 60)) ∧
    isCacheValid (some snap) (some (now - ttlMin * 60000 + 1000)) now (ttlMin : ℚ) = true ∧
    isCacheValid (some snap) (some (now - ttlMin * 60000)) now (ttlMin : ℚ) = false ∧
    isCacheValid (some snap) (some (now - ttlMin * 60000 - 1000)) now (ttlMin : ℚ) = false := by
  refine ⟨?_, ?_, ?_, ?_⟩
  · rcases mc with - | s <;> rcases mts with - | t
    · simp [isCacheValid]
    · simp [isCacheValid]
    · simp [isCacheValid]
    · rw [isCacheValid_some_iff]
      constructor
      · intro h
        exact ⟨s, t, rfl, rfl, h⟩
      · rintro ⟨s2, t2, hs, ht, h⟩
        rcases Option.some.injEq .. ▸ ht with rfl
        exact h
  · rw [isCacheValid_some_iff]
    push_cast
    linarith
  · rw [Bool.eq_false_iff, Ne, isCacheValid_some_iff]
    push_cast
    intro h
    linarith
  · rw [Bool.eq_false_iff, Ne, isCacheValid_some_iff]
    push_cast
    intro h
    linarith

/-- C1: with no cache entry present, if the structured-endpoint and
rendered-page stages contribute no items and the static-page stage
fails, `fetchMenuData` raises the `Failed to fetch menu data:` error;
moreover, for every combination of stage outcomes, a success result
under an empty cache never carries an empty item list. -/
theorem c1_all_fail_raises (now : Int) (ttl : ℚ) (env : FetchEnv) (e : String)
    (hapi : stageYieldsNoItems (fetchFromAPI env.apiResponses))
    (hpup : stageYieldsNoItems (fetchWithPuppeteer env.pup))
    (hweb : fetchFromWebsite env.web = .error e) :
    fetchMenuData ⟨none, none⟩ now ttl env =
      (.error ("Failed to fetch menu data: " ++ e), ⟨none, none⟩,
        [Stage.api, Stage.puppeteer, Stage.web]) ∧
    ∀ (env2 : FetchEnv) (md : MenuSnapshot) (st2 : CacheState) (tr : List Stage),
      fetchMenuData ⟨none, none⟩ now ttl env2 = (.ok md, st2, tr) → md.items ≠ [] := by
  constructor
  · have hfresh : fetchMenuData ⟨none, none⟩ now ttl env =
        fetchMenuDataFresh ⟨none, none⟩ now env := rfl
    rw [hfresh, fetchMenuDataFresh_web hapi hpup, hweb]
  · intro env2 md st2 tr h
    have hfresh : fetchMenuData ⟨none, none⟩ now ttl env2 =
        fetchMenuDataFresh ⟨none, none⟩ now env2 := rfl
    rw [hfresh] at h
    exact fetchMenuDataFresh_ok_items h

/-- Witness for C1: a concrete run in which every stage fails. -/
theorem c1_all_fail_raises_witness :
    fetchMenuData ⟨none, none⟩ 0 1440 allFailFetchEnv =
      (.error "Failed to fetch menu data: boom", ⟨none, none⟩,
        [Stage.api, Stage.puppeteer, Stage.web]) :=
  (c1_all_fail_raises 0 1440 allFailFetchEnv "boom"
    (fun _ h => Option.noConfusion h) (fun _ h => Option.noConfusion h) rfl).1

end MenuMpc

namespace MenuMpc

/-- C3: with an invalid cache, the stages run in the fixed order
structured-endpoint (`fetchFromAPI`), rendered-page
(`fetchWithPuppeteer`), static-page (`fetchFromWebsite`): a stage that
yields at least one item is returned and cached immediately and later
stages are never invoked; the rendered-page stage runs only when the
structured stage yielded no items, and the static stage only when both
earlier stages yielded none. -/
theorem c3_stage_ordering (st : CacheState) (now : Int) (ttl : ℚ) (env : FetchEnv)
    (hcv : isCacheValid st.menuCache st.cacheTimestamp now ttl = false) :
    (∀ md, fetchFromAPI env.apiResponses = some md → md.items ≠ [] →
      fetchMenuData st now ttl env = (.ok md, updateCache st md now, [Stage.api])) ∧
    (stageYieldsNoItems (fetchFromAPI env.apiResponses) →
      ∀ md, fetchWithPuppeteer env.pup = some md → md.items ≠ [] →
        fetchMenuData st now ttl env =
          (.ok md, updateCache st md now, [Stage.api, Stage.puppeteer])) ∧
    (stageYieldsNoItems (fetchFromAPI env.apiResponses) →
      stageYieldsNoItems (fetchWithPuppeteer env.pup) →
      (fetchMenuData st now ttl env).2.2 = [Stage.api, Stage.puppeteer, Stage.web]) := by
  rw [fetchMenuData_of_invalid env hcv]
  refine ⟨?_, ?_, ?_⟩
  · intro md hA hmd
    exact fetchMenuDataFresh_api hA hmd
  · intro hA md hP hmd
    exact fetchMenuDataFresh_pup hA hP hmd
  · intro hA hP
    rw [fetchMenuDataFresh_web hA hP]
    rcases fetchFromWebsite env.web with e | md
    · rcases st.menuCache with - | cached <;> rfl
    · rfl

/-- Witness for C3: the structured-endpoint stage succeeds and no later
stage is invoked. -/
theorem c3_stage_ordering_witness :
    fetchMenuData ⟨none, none⟩ 0 1440 leakFetchEnv =
      (.ok leakSnap, updateCache ⟨none, none⟩ leakSnap 0, [Stage.api]) :=
  (c3_stage_ordering ⟨none, none⟩ 0 1440 leakFetchEnv rfl).1 leakSnap rfl (by decide)

/-- C4: whenever a cache entry exists — of any age, validity not
required — and the fresh acquisition run fails with an error, the entry
is returned instead of the failure; the failure is propagated only when
no cache entry exists; entries were stored by `updateCache`, which flags
them `cached := true`. -/
theorem c4_stale_fallback (st : CacheState) (now : Int) (ttl : ℚ) (env : FetchEnv)
    (snap : MenuSnapshot) (e : String) (hc : st.menuCache = some snap)
    (hcv : isCacheValid st.menuCache st.cacheTimestamp now ttl = false)
    (hapi : stageYieldsNoItems (fetchFromAPI env.apiResponses))
    (hpup : stageYieldsNoItems (fetchWithPuppeteer env.pup))
    (hweb : fetchFromWebsite env.web = .error e) :
    fetchMenuData st now ttl env = (.ok snap, st, [Stage.api, Stage.puppeteer, Stage.web]) ∧
    (∀ (env2 : FetchEnv) (e2 : String), fetchFromWebsite env2.web = .error e2 →
      stageYieldsNoItems (fetchFromAPI env2.apiResponses) →
      stageYieldsNoItems (fetchWithPuppeteer env2.pup) →
      fetchMenuData ⟨none, none⟩ now ttl env2 =
        (.error ("Failed to fetch menu data: " ++ e2), ⟨none, none⟩,
          [Stage.api, Stage.puppeteer, Stage.web])) ∧
    (∀ (st0 : CacheState) (md : MenuSnapshot),
      (updateCache st0 md now).menuCache = some { md with cached := true }) := by
  refine ⟨?_, ?_, fun _ _ => rfl⟩
  · rw [fetchMenuData_of_invalid env hcv, fetchMenuDataFresh_web hapi hpup, hweb, hc]
  · intro env2 e2 hweb2 hapi2 hpup2
    have hfresh : fetchMenuData ⟨none, none⟩ now ttl env2 =
        fetchMenuDataFresh ⟨none, none⟩ now env2 := rfl
    rw [hfresh, fetchMenuDataFresh_web hapi2 hpup2, hweb2]

/-- Witness for C4: a present (timestamp-less, hence invalid) cache
entry is served when every stage fails. -/
theorem c4_stale_fallback_witness :
    fetchMenuData ⟨some twoTabsSnap, none⟩ 0 1440 allFailFetchEnv =
      (.ok twoTabsSnap, ⟨some twoTabsSnap, none⟩,
        [Stage.api, Stage.puppeteer, Stage.web]) :=
  (c4_stale_fallback ⟨some twoTabsSnap, none⟩ 0 1440 allFailFetchEnv twoTabsSnap "boom"
    rfl rfl (fun _ h => Option.noConfusion h) (fun _ h => Option.noConfusion h) rfl).1

end MenuMpc

namespace MenuMpc

/-! ## Claims C2, C6, C7, C10 -/

/-- C2 counterexample: a rendered-page run discovering the tabs
`COFFEE` and `TEA` but extracting items only under `COFFEE` is returned
as success with `"TEA"` in `categories` although no item has that
category — `fetchWithPuppeteer` stores the tab labels, not the item
categories. -/
theorem c2_categories_counterexample :
    fetchMenuData ⟨none, none⟩ 0 1440 twoTabsFetchEnv =
      (.ok twoTabsSnap, updateCache ⟨none, none⟩ twoTabsSnap 0,
        [Stage.api, Stage.puppeteer]) ∧
    "TEA" ∈ twoTabsSnap.categories ∧
    ∀ it ∈ twoTabsSnap.items, it.category ≠ "TEA" :=
  ⟨rfl, by decide, by decide⟩

/-- C2 (amended): structured-endpoint and static-page snapshots carry
`categories` equal to the exact (duplicate-free, first-seen order) set
of distinct item categories; rendered-page snapshots guarantee only the
forward direction — every item's category occurs in `categories` (the
discovered tab labels), which may also contain labels with no item. -/
theorem c2_categories_amended :
    (∀ (rs : List (Option APIData)) (md : MenuSnapshot), fetchFromAPI rs = some md →
      (∀ c, c ∈ md.categories ↔ c ∈ md.items.map (·.category)) ∧ md.categories.Nodup) ∧
    (∀ (env : WebsiteEnv) (md : MenuSnapshot), fetchFromWebsite env = .ok md →
      (∀ c, c ∈ md.categories ↔ c ∈ md.items.map (·.category)) ∧ md.categories.Nodup) ∧
    (∀ (env : PuppeteerEnv) (md : MenuSnapshot), fetchWithPuppeteer env = some md →
      ∀ it ∈ md.items, it.category ∈ md.categories) := by
  refine ⟨?_, ?_, ?_⟩
  · intro rs md h
    obtain ⟨-, hcat, -⟩ := fetchFromAPI_some rs h
    rw [hcat]
    exact ⟨fun c => firstSeenDedup_mem _ c, firstSeenDedup_nodup _⟩
  · intro env md h
    obtain ⟨-, -, hcat⟩ := fetchFromWebsite_ok h
    rw [hcat]
    exact ⟨fun c => firstSeenDedup_mem _ c, firstSeenDedup_nodup _⟩
  · intro env md h it hit
    obtain ⟨hitems, hcats, -⟩ := fetchWithPuppeteer_some h
    rw [hcats]
    rw [hitems] at hit
    exact runPasses_category _ _ it (dedupKeyed_subset _ _ it hit)

/-- Witness for C2 (amended) at a concrete structured-endpoint run. -/
theorem c2_categories_amended_witness :
    (∀ c, c ∈ leakSnap.categories ↔ c ∈ leakSnap.items.map (·.category)) ∧
      leakSnap.categories.Nodup :=
  c2_categories_amended.1 [some leakAPIData] leakSnap rfl

/-- C6 counterexample: the structured-endpoint stage returns as success
a snapshot whose only item name contains the `window.` and `LOCATIONS`
markers — `isJavaScriptCode` is never consulted on that path, so the
corrupted result is surfaced to the caller. -/
theorem c6_leakage_counterexample :
    fetchMenuData ⟨none, none⟩ 0 1440 leakFetchEnv =
      (.ok leakSnap, updateCache ⟨none, none⟩ leakSnap 0, [Stage.api]) ∧
    isJavaScriptCode leakSnap.items = true ∧
    jsIncludes leakItem.name "window." = true :=
  ⟨rfl, by decide, by decide⟩

/-- C6 (amended): only the static-page stage applies the corruption
check: a successful `fetchFromWebsite` result never contains a
script-leakage marker item (and is non-empty); the structured-endpoint
and rendered-page stages perform no such check. -/
theorem c6_static_rejects_leakage (env : WebsiteEnv) (md : MenuSnapshot)
    (h : fetchFromWebsite env = .ok md) :
    isJavaScriptCode md.items = false ∧ md.items ≠ [] := by
  obtain ⟨hne, hjs, -⟩ := fetchFromWebsite_ok h
  exact ⟨hjs, hne⟩

/-- Witness for C6 (amended): a concrete static-page success carries no
leakage markers. -/
theorem c6_static_rejects_leakage_witness :
    isJavaScriptCode sampleWebSnap.items = false ∧ sampleWebSnap.items ≠ [] :=
  c6_static_rejects_leakage sampleWebEnv sampleWebSnap rfl

/-- C7: a rendered-page success snapshot never contains two items with
the same `(name, category)` pair; in particular, two category passes
that each discover `Latte` in `COFFEE` yield exactly one
`Latte`/`COFFEE` item. -/
theorem c7_dedup_name_category (env : PuppeteerEnv) (md : MenuSnapshot)
    (h : fetchWithPuppeteer env = some md) :
    md.items.Pairwise (fun a b => ¬(a.name = b.name ∧ a.category = b.category)) ∧
    fetchWithPuppeteer twoLattePupEnv = some latteSnap ∧
    (latteSnap.items.filter fun it =>
      it.name = "Latte" && it.category = "COFFEE").length = 1 := by
  refine ⟨?_, rfl, by decide⟩
  obtain ⟨hitems, -, -⟩ := fetchWithPuppeteer_some h
  rw [hitems]
  refine (dedupByNameCategory_pairwise _).imp ?_
  intro a b hk hab
  exact hk (by rw [nameCatKey, nameCatKey, hab.1, hab.2])

/-- Witness for C7 at the double-`Latte` environment. -/
theorem c7_dedup_name_category_witness :
    latteSnap.items.Pairwise (fun a b => ¬(a.name = b.name ∧ a.category = b.category)) :=
  (c7_dedup_name_category twoLattePupEnv latteSnap rfl).1

/-- C10: the rendered-page deduplication key `name + "-" + category` is
not injective in the pair: `("Latte-Iced", "COFFEE")` and
`("Latte", "Iced-COFFEE")` are distinct pairs with equal keys, both are
discovered by the run, and only the first-encountered survives in the
returned snapshot. -/
theorem c10_key_collision :
    (latteIcedItem.name, latteIcedItem.category) ≠
      (icedLatteItem.name, icedLatteItem.category) ∧
    nameCatKey latteIcedItem = nameCatKey icedLatteItem ∧
    runPasses collidingPupEnv.categories collidingPupEnv.passes =
      [latteIcedItem, icedLatteItem] ∧
    fetchWithPuppeteer collidingPupEnv =
      some ⟨[latteIcedItem], ["COFFEE", "Iced-COFFEE"], some "puppeteer", false⟩ :=
  ⟨by decide, by decide, by decide, rfl⟩

end MenuMpc

namespace MenuMpc

/-! ## Claim C8 -/

/-- For cent values below 100 the padded cent string has exactly two
digit characters. -/
theorem centsPad_two_digits : ∀ n, n < 100 →
    (((if n < 10 then "0" else "") ++ toString n).length = 2 ∧
      ((if n < 10 then "0" else "") ++ toString n).toList.all Char.isDigit) := by
  decide

/-- `map price` over a categorized shape is per-source-item
`jsPriceString`. -/
theorem categorized_prices (cats : List APICategory) :
    ((cats.flatMap fun category =>
        match category.items with
        | some items => items.map (mkCategorizedItem category)
        | none => []).map (·.price)) =
      ((cats.flatMap fun category => category.items.getD []).map
        fun it => jsPriceString it.price) := by
  induction cats with
  | nil => rfl
  | cons c cs ih =>
    simp only [List.flatMap_cons, List.map_append, ih]
    congr 1
    rcases c.items with - | items
    · rfl
    · simp only [Option.getD_some, List.map_map]
      rfl

/-- C8 counterexample: a source item whose integer minor-unit price is
present but zero maps to `"Price not available"`, not to `"$0.00"`; the
sentinel also differs in case from the claim's `"price not available"`. -/
theorem c8_price_counterexample :
    parseAPIResponse zeroPriceAPIData =
      [⟨"Water", "", "Price not available", "General"⟩] ∧
    ("Price not available" : String) ≠ "$" ++ toFixed2 0 ∧
    ("Price not available" : String) ≠ "price not available" :=
  ⟨by decide, by decide, by decide⟩

/-- C8 (amended): across all three recognized response shapes, a source
item whose integer minor-unit price is present and non-zero maps to
`"$"` followed by `p / 100` formatted to exactly two decimals, and a
source item with the price absent or zero maps to the sentinel
`"Price not available"`. -/
theorem c8_price_mapping_amended (d : APIData) :
    ((parseAPIResponse d).map (·.price) =
      (sourceItems d).map fun it =>
        match it.price with
        | some p => if 0 < p then "$" ++ toFixed2 p else "Price not available"
        | none => "Price not available") ∧
    ∀ p : Nat, ∃ cents : String,
      "$" ++ toFixed2 p = "$" ++ toString (p / 100) ++ "." ++ cents ∧
      cents.length = 2 ∧ cents.toList.all Char.isDigit := by
  constructor
  · have hfun : (fun it : APIItem => match it.price with
        | some p => if 0 < p then "$" ++ toFixed2 p else "Price not available"
        | none => "Price not available") = fun it => jsPriceString it.price := by
      funext it
      rcases it.price with - | p
      · rfl
      · by_cases hp : p = 0
        · subst hp
          rfl
        · simp [jsPriceString, hp, Nat.pos_of_ne_zero hp]
    rw [hfun]
    unfold parseAPIResponse sourceItems
    cases hm : d.menu with
    | some menu => exact categorized_prices menu
    | none =>
      cases hi : d.items with
      | some items =>
        simp only [List.map_map]
        rfl
      | none =>
        cases hc : d.categories with
        | some cats => exact categorized_prices cats
        | none => rfl
  · intro p
    refine ⟨(if p % 100 < 10 then "0" else "") ++ toString (p % 100), ?_, ?_, ?_⟩
    · simp [toFixed2, String.append_assoc]
    · exact (centsPad_two_digits (p % 100) (Nat.mod_lt _ (by norm_num))).1
    · exact (centsPad_two_digits (p % 100) (Nat.mod_lt _ (by norm_num))).2

end MenuMpc

namespace MenuMpc

/-! ## Claim C9 -/

theorem splitOnChar_head (sep : Char) : ∀ l : List Char,
    ∃ t, splitOnChar sep l = (l.takeWhile (· != sep)) :: t
  | [] => ⟨[], rfl⟩
  | c :: cs => by
    rcases splitOnChar_head sep cs with ⟨t, ht⟩
    by_cases hc : c = sep
    · subst hc
      refine ⟨splitOnChar c cs, ?_⟩
      simp [splitOnChar, List.takeWhile_cons]
    · refine ⟨t, ?_⟩
      simp only [splitOnChar, ht, if_neg hc, List.takeWhile_cons, bne_iff_ne, ne_eq, hc,
        not_false_iff, if_true]
      simp [hc]

theorem splitOnChar_structure (sep : Char) : ∀ (l : List Char), sep ∈ l →
    splitOnChar sep l =
      (l.takeWhile (· != sep)) :: splitOnChar sep ((l.dropWhile (· != sep)).drop 1)
  | [], h => absurd h (List.not_mem_nil sep)
  | c :: cs, h => by
    by_cases hc : c = sep
    · subst hc
      simp [splitOnChar, List.takeWhile_cons, List.dropWhile_cons]
    · have hmem : sep ∈ cs := by
        rcases List.mem_cons.mp h with h1 | h1
        · exact absurd h1.symm hc
        · exact h1
      have ih := splitOnChar_structure sep cs hmem
      simp only [splitOnChar, ih, if_neg hc]
      simp [List.takeWhile_cons, List.dropWhile_cons, hc]

/-- When `sep` occurs in `l`, the split has at least two components:
the prefix before the first `sep`, and the segment between the first
and second `sep` (to the end when no second occurrence). -/
theorem splitOnChar_two (sep : Char) (l : List Char) (h : sep ∈ l) :
    ∃ t, splitOnChar sep l =
      (l.takeWhile (· != sep)) ::
        (((l.dropWhile (· != sep)).drop 1).takeWhile (· != sep)) :: t := by
  rcases splitOnChar_head sep ((l.dropWhile (· != sep)).drop 1) with ⟨t, ht⟩
  exact ⟨t, by rw [splitOnChar_structure sep l h, ht]⟩

theorem containsDollarNumber_mem {line : String}
    (h : containsDollarNumber line = true) : '$' ∈ line.toList := by
  unfold containsDollarNumber at h
  rcases List.any_eq_true.mp h with ⟨⟨a, b⟩, hmem, hab⟩
  simp only [Bool.and_eq_true, decide_eq_true_eq] at hab
  rcases hab with ⟨rfl, -⟩
  exact (List.of_mem_zip hmem).1

/-- C9 counterexample: on a line containing two price tokens, the
produced price is `"$"` plus the trimmed text between the first and
second `$` only — not everything from the first `$` onward, as the
claim's general rule states. -/
theorem c9_price_counterexample :
    (parseMenuFromText "SNACKS\nCombo Deal $5.00 plus $2.00").map (·.price) =
      ["$5.00 plus"] ∧
    (["$5.00 plus"] : List String) ≠
      [⟨"Combo Deal $5.00 plus $2.00".toList.dropWhile (· != '$')⟩] :=
  ⟨by decide, by decide⟩

/-- C9 (amended): the spec's concrete example holds verbatim, and the
general line rules hold with one correction: an all-caps line shorter
than 50 characters becomes the current category; a line containing a
`$`-prefixed number is split at the first `$` into a trimmed name
(before it) and a price equal to `"$"` plus the trimmed text between
the first and second `$` (the entire remainder when no second `$`
occurs); entries whose name is shorter than 3 characters are discarded;
all other lines are skipped. -/
theorem c9_text_heuristic_amended :
    parseMenuFromText "COFFEE\nEspresso $3.50\nTEA\nGreen Tea $2.50" =
      [⟨"Espresso", "", "$3.50", "COFFEE"⟩, ⟨"Green Tea", "", "$2.50", "TEA"⟩] ∧
    (∀ (line : String) (rest : List String) (cat : String),
      isCategoryHeader line = true →
      parseMenuLines (line :: rest) cat = parseMenuLines rest line) ∧
    (∀ (line : String) (rest : List String) (cat : String),
      isCategoryHeader line = false → containsDollarNumber line = true →
      parseMenuLines (line :: rest) cat =
        (if (jsTrim ⟨line.toList.takeWhile (· != '$')⟩).length > 2 then
          [⟨jsTrim ⟨line.toList.takeWhile (· != '$')⟩, "",
            "$" ++ jsTrim ⟨((line.toList.dropWhile (· != '$')).drop 1).takeWhile (· != '$')⟩,
            cat⟩]
        else []) ++ parseMenuLines rest cat) ∧
    (∀ (line : String) (rest : List String) (cat : String),
      isCategoryHeader line = false → containsDollarNumber line = false →
      parseMenuLines (line :: rest) cat = parseMenuLines rest cat) := by
  refine ⟨by decide, ?_, ?_, ?_⟩
  · intro line rest cat hh
    simp [parseMenuLines, hh]
  · intro line rest cat hh hd
    obtain ⟨t, hsplit⟩ := splitOnChar_two '$' line.toList (containsDollarNumber_mem hd)
    have hparts : jsSplit line '$' =
        (⟨line.toList.takeWhile (· != '$')⟩ : String) ::
          (⟨((line.toList.dropWhile (· != '$')).drop 1).takeWhile (· != '$')⟩ : String) ::
          t.map (fun l => (⟨l⟩ : String)) := by
      unfold jsSplit
      rw [hsplit]
      rfl
    simp only [parseMenuLines, hh, Bool.false_eq_true, if_false, hd, if_true, hparts]
    have hlen : ((⟨line.toList.takeWhile (· != '$')⟩ : String) ::
        (⟨((line.toList.dropWhile (· != '$')).drop 1).takeWhile (· != '$')⟩ : String) ::
        t.map (fun l => (⟨l⟩ : String))).length ≥ 2 := by
      simp
    rw [dif_pos hlen]
    simp only [List.getElem_cons_zero, List.getElem_cons_succ]
    by_cases hname : (jsTrim ⟨line.toList.takeWhile (· != '$')⟩).length > 2
    · rw [if_pos hname, if_pos hname]
      rfl
    · rw [if_neg hname, if_neg hname]
      rfl
  · intro line rest cat hh hd
    simp [parseMenuLines, hh, hd]

/-- Witness for C9 (amended): the item rule evaluated on the line
`Espresso $3.50`. -/
theorem c9_text_heuristic_amended_witness :
    parseMenuLines ["Espresso $3.50"] "COFFEE" =
      (if (jsTrim ⟨"Espresso $3.50".toList.takeWhile (· != '$')⟩).length > 2 then
        [⟨jsTrim ⟨"Espresso $3.50".toList.takeWhile (· != '$')⟩, "",
          "$" ++ jsTrim ⟨(("Espresso $3.50".toList.dropWhile (· != '$')).drop 1).takeWhile
            (· != '$')⟩,
          "COFFEE"⟩]
      else []) ++ parseMenuLines [] "COFFEE" :=
  c9_text_heuristic_amended.2.2.1 "Espresso $3.50" [] "COFFEE" (by decide) (by decide)

end MenuMpc
